import Mathlib

/-!
Verification development for the SPA navigation module of the music-app
repository (src/js/spa.js).  The module is embedded shallowly: the mutable
browser state touched by the module (page cache, loaded-style set, the
stylesheet link elements in the document, the main content element, the
document title, the nav links, the history stack, the current address) is a
`World` record, and each function of the module becomes a state transformer
on `World`.  The browser facilities the module calls are an `Env`: the
network (`fetch`, which either rejects with a transport error or resolves
with a status and a readable text body; the module never inspects the
status) and the HTML parser (`DOMParser.parseFromString`, which never throws
and is represented by its output, a `Dom` record of the queries the module
performs on the parsed document).

Steps of the module that only touch the image preload cache or per-image
inline styles (`preloadImage`, `preloadImagesFromHTML`,
`preloadVisibleImages`, the lazy-image wiring in `reinitPage`, lines 50-78,
91, 175, 178 and 207-221 of spa.js) mutate no state that any verified
property observes and cannot fail; the embedding treats them as the
identity on `World`.  Event-listener registration is represented by the
handler functions themselves.
-/

namespace Spa

/-- JS `String.prototype.startsWith` restricted to the receiver and the
argument, over character lists: `charsStartWith s p` is true when `p` is an
initial segment of `s`. -/
def charsStartWith : List Char → List Char → Bool
  | _, [] => true
  | [], _ :: _ => false
  | c :: cs, p :: ps => c == p && charsStartWith cs ps

/-- JS `s.startsWith(p)`. -/
def jsStartsWith (s p : String) : Bool :=
  charsStartWith s.data p.data

/-- JS `s.endsWith(p)`. -/
def jsEndsWith (s p : String) : Bool :=
  charsStartWith s.data.reverse p.data.reverse

/-- JS `s || d` for strings: the empty string is falsy. -/
def jsOr (s d : String) : String :=
  if s = "" then d else s

/-- JS `x || d` where `x` is a string or null/undefined (`Option`). -/
def jsOrOpt (x : Option String) (d : String) : String :=
  match x with
  | some s => jsOr s d
  | none => d

/-- JS `s.split('/').pop()`: the segment after the last slash (the whole
string when it has no slash, the empty string when it ends in a slash). -/
def jsSplitPop (s : String) : String :=
  ⟨(s.data.reverse.takeWhile (fun c => c != '/')).reverse⟩

/-- JS `Map.prototype.get` (and `has`, via `Option.isSome`) on an
insertion-ordered association list. -/
def mapGet (k : String) : List (String × String) → Option String
  | [] => none
  | (k', v) :: rest => if k' = k then some v else mapGet k rest

/-- JS `Map.prototype.set`: overwrite in place when the key exists,
otherwise append in insertion order. -/
def mapSet (k v : String) : List (String × String) → List (String × String)
  | [] => [(k, v)]
  | (k', v') :: rest => if k' = k then (k, v) :: rest else (k', v') :: mapSet k v rest

/-- JS `Set.prototype.add` on a duplicate-free list in insertion order. -/
def setAdd (x : String) (s : List String) : List String :=
  if x ∈ s then s else s ++ [x]

/-- A `<link>` element as the module reads it: its `rel` attribute and its
`href` attribute (`none` when the attribute is absent, as
`getAttribute` then returns null). -/
structure LinkEl where
  rel : String
  href : Option String
deriving DecidableEq, Repr

/-- The queries spa.js performs on a document produced by
`DOMParser.parseFromString(html, "text/html")`: the `innerHTML` of the first
`<main>` element (`none` when absent), the `textContent` of the first
`<title>` element (`none` when absent), `document.body.className` (the body
always exists in a parsed HTML document), and the `<link>` elements in
document order.  The parser itself never throws; it is the `parse` field of
`Env` below. -/
structure Dom where
  mainInner : Option String
  titleText : Option String
  bodyClassName : String
  links : List LinkEl
deriving DecidableEq, Repr

/-- The record returned by `extractContent` (spa.js lines 116-121). -/
structure ExtractedContent where
  main : String
  title : String
  bodyClass : String
  styles : List String
deriving DecidableEq, Repr

/-- spa.js lines 102-122, `extractContent(html)` after the parse: collect
the `href` of every `link[rel="stylesheet"]` element in document order when
it is truthy, does not start with `"http"` and ends with `".css"`; the main
content defaults to the empty string and the title to `"Music App"` via the
JS `||` operator. -/
def extractContent (doc : Dom) : ExtractedContent :=
  let styles := doc.links.foldl
    (fun acc l =>
      if l.rel == "stylesheet" then
        match l.href with
        | some h =>
            if h != "" && !jsStartsWith h "http" && jsEndsWith h ".css" then
              acc ++ [h]
            else acc
        | none => acc
      else acc)
    []
  { main := jsOrOpt doc.mainInner ""
    title := jsOrOpt doc.titleText "Music App"
    bodyClass := jsOr doc.bodyClassName ""
    styles := styles }

/-- The outcome of one call of the browser `fetch` composed with
`response.text()`: `rejected` when the fetch rejects (network or transport
error) or the body cannot be read as text, and `resolved status body` when
an HTTP response arrived and its body was read — HTTP error statuses such
as 404 still resolve. -/
inductive FetchOutcome where
  | rejected
  | resolved (status : Nat) (body : String)
deriving DecidableEq, Repr

/-- The browser facilities spa.js calls: `net url k` is the outcome of the
k-th network request of the session when it asks for `url` (indexing by the
request counter lets distinct physical requests for one URL differ), and
`parse` is `DOMParser.parseFromString` represented by its output. -/
structure Env where
  net : String → Nat → FetchOutcome
  parse : String → Dom

/-- The style of the `<main>` element plus its content and scroll position —
exactly the properties spa.js touches. -/
structure MainEl where
  opacity : String
  pointerEvents : String
  transition : String
  innerHTML : String
  scrollTop : Nat
deriving DecidableEq, Repr

/-- A `.nav-link` element: its `href` attribute and whether its class list
contains the `active` marker. -/
structure NavLink where
  href : Option String
  active : Bool
deriving DecidableEq, Repr

/-- One history entry: the `{url}` state object attached by spa.js (`none`
for entries created outside the module), the title argument and the
address. -/
structure HistEntry where
  stateUrl : Option String
  entryTitle : String
  entryHref : String
deriving DecidableEq, Repr

/-- The stylesheet bookkeeping: the `loadedStyles` set (spa.js line 16) and
the hrefs of the `<link rel="stylesheet">` elements currently in the
document, in order (each `document.head.appendChild` adds one). -/
structure StyleSt where
  loadedStyles : List String
  headStyles : List String
deriving DecidableEq, Repr

/-- All mutable state the module touches.  `location` is the current
address as a string: `history.pushState(_, _, url)` moves it to `url`,
`window.location.href = url` is recorded in `hardNav` (a full browser
navigation replaces the document, ending the SPA session), and
`fetchCount` counts the network requests issued. -/
structure World where
  pageCache : List (String × String)
  styles : StyleSt
  mainEl : Option MainEl
  docTitle : String
  navLinks : List NavLink
  history : List HistEntry
  location : String
  fetchCount : Nat
  hardNav : Option String
deriving DecidableEq, Repr

/-- One iteration of the `styles.forEach` loop of spa.js lines 26-41: skip
an href already in `loadedStyles`; otherwise append a new stylesheet link
to the head, add the href to `loadedStyles` immediately, and record the
pending promise for the new link. -/
def loadStylesStep (acc : StyleSt × List String) (href : String) : StyleSt × List String :=
  if href ∈ acc.1.loadedStyles then acc
  else
    (⟨acc.1.loadedStyles ++ [href], acc.1.headStyles ++ [href]⟩, acc.2 ++ [href])

/-- spa.js lines 23-44, `loadPageStyles(styles)`: returns the new style
state and the hrefs whose load this call waits for (the promises passed to
`Promise.all`). -/
def loadPageStyles (styles : List String) (st : StyleSt) : StyleSt × List String :=
  styles.foldl loadStylesStep (st, [])

/-- A stylesheet link element event: it fires `load` on success and `error`
on failure. -/
inductive StyleEvent where
  | load
  | error
deriving DecidableEq, Repr

/-- spa.js lines 33-36: the promise of a newly appended link is resolved by
its `onload` handler and equally by its `onerror` handler. -/
def linkSettles : StyleEvent → Bool
  | .load => true
  | .error => true

/-- Whether the `Promise.all` of spa.js line 43 has resolved, given which
event (if any) each pending stylesheet has fired: every pending href must
have fired an event, and either event settles its promise. -/
def stylesCompleted (events : String → Option StyleEvent) (pending : List String) : Bool :=
  pending.all fun h =>
    match events h with
    | some e => linkSettles e
    | none => false

/-- spa.js lines 84-95, `preloadPage(url)`: a no-op when the page cache
already holds `url`; otherwise one fetch, whose successful body is stored
in the cache, and whose rejection is swallowed silently. -/
def preloadPage (env : Env) (url : String) (w : World) : World :=
  if (mapGet url w.pageCache).isSome then w
  else
    match env.net url w.fetchCount with
    | .resolved _ body =>
        { w with fetchCount := w.fetchCount + 1
                 pageCache := mapSet url body w.pageCache }
    | .rejected => { w with fetchCount := w.fetchCount + 1 }

/-- spa.js lines 133-134: dim the content region and disable pointer
interaction at the start of a navigation. -/
def dimMain (m : MainEl) : MainEl :=
  { m with opacity := "0.5", pointerEvents := "none" }

/-- spa.js lines 139-145: serve the markup from the page cache when
present, otherwise fetch it and, on success, store the raw body under
`url`; `none` signals the rejection that the surrounding `try` turns into
the hard fallback. -/
def navResolve (env : Env) (url : String) (w : World) : Option String × World :=
  match mapGet url w.pageCache with
  | some html => (some html, w)
  | none =>
      match env.net url w.fetchCount with
      | .resolved _ body =>
          (some body, { w with fetchCount := w.fetchCount + 1
                               pageCache := mapSet url body w.pageCache })
      | .rejected => (none, { w with fetchCount := w.fetchCount + 1 })

/-- spa.js lines 190-202, `updateActiveNav(url)`: compute the filename
portion of `url` (defaulting to `index.html` via `||`) and toggle the
`active` class of every `.nav-link` according to the comparison of its
href (read with `getAttribute(..) || ''`) against that filename. -/
def updateActiveNav (url : String) (links : List NavLink) : List NavLink :=
  let filename := jsOr (jsSplitPop url) "index.html"
  links.map fun l =>
    let href := l.href.getD ""
    let isActive := href == filename ||
        (filename == "index.html" && href == "index.html") ||
        (filename == "" && href == "index.html")
    { l with active := isActive }

/-- spa.js lines 147-178, the body of `navigateTo` after the markup is
resolved: extract the content, ensure its stylesheets, fade out
(transition set, opacity 0, 150 ms timer), swap the main content, set the
title, push the `{url}` history entry (moving the address to `url`),
update the active nav link, restore opacity and pointer events, and reset
the scroll position.  `m1` is the dimmed main element. -/
def applyContent (env : Env) (url : String) (html : String) (m1 : MainEl) (w2 : World) : World :=
  let content := extractContent (env.parse html)
  let st2 := (loadPageStyles content.styles w2.styles).1
  let m2 : MainEl := { m1 with transition := "opacity 0.15s ease", opacity := "0" }
  let m3 : MainEl := { m2 with innerHTML := content.main }
  let w4 : World := { w2 with styles := st2, mainEl := some m3, docTitle := content.title }
  let w5 : World := { w4 with
    history := w4.history ++ [⟨some url, content.title, url⟩]
    location := url }
  let w6 : World := { w5 with navLinks := updateActiveNav url w5.navLinks }
  let m4 : MainEl := { m3 with opacity := "1", pointerEvents := "", scrollTop := 0 }
  { w6 with mainEl := some m4 }

/-- spa.js lines 128-184, `navigateTo(url)`: return at once when the
document has no `<main>`; otherwise dim, resolve the markup, and either
complete the SPA transition or — when the fetch rejected — fall back to a
full browser navigation to `url` (the `catch` of line 180). -/
def navigateTo (env : Env) (url : String) (w : World) : World :=
  match w.mainEl with
  | none => w
  | some m0 =>
      match navResolve env url { w with mainEl := some (dimMain m0) } with
      | (none, w2) => { w2 with hardNav := some url }
      | (some html, w2) => applyContent env url html (dimMain m0) w2

/-- The decision of spa.js lines 228-245, `handleLinkClick`: either the
default browser handling proceeds, or the default is prevented and
`navigateTo` is invoked on the href. -/
inductive ClickAction where
  | intercept (url : String)
  | defaultNav
deriving DecidableEq, Repr

/-- spa.js lines 228-245: the argument is the `href` attribute of the
closest enclosing anchor of the click target (`none` when there is no
anchor or the anchor has no href attribute; both return without
intercepting, as does a falsy empty href).  The click is intercepted
exactly when the href is truthy, does not start with `"http"`, is not an
anchor or mailto link, and ends with `".html"`. -/
def handleLinkClick (href : Option String) : ClickAction :=
  match href with
  | none => .defaultNav
  | some h =>
      if h == "" || jsStartsWith h "http" || jsStartsWith h "#" ||
          jsStartsWith h "mailto:" || !jsEndsWith h ".html" then
        .defaultNav
      else
        .intercept h

/-- spa.js lines 251-260, `handleLinkHover`: preload the hovered link when
its href is truthy, ends with `".html"` and does not start with
`"http"`. -/
def handleLinkHover (env : Env) (href : Option String) (w : World) : World :=
  match href with
  | some h =>
      if h != "" && jsEndsWith h ".html" && !jsStartsWith h "http" then
        preloadPage env h w
      else w
  | none => w

/-- spa.js lines 266-273, `handlePopState`: when the event state carries a
truthy `url`, navigate to it; otherwise derive the target from the current
address (filename portion, defaulting to `index.html`). -/
def handlePopState (env : Env) (stateUrl : Option String) (w : World) : World :=
  match stateUrl with
  | some u =>
      if u = "" then navigateTo env (jsOr (jsSplitPop w.location) "index.html") w
      else navigateTo env u w
  | none => navigateTo env (jsOr (jsSplitPop w.location) "index.html") w

/-- One iteration of the nav-link loop of spa.js lines 308-314 (the
2000 ms delayed preload of every nav link whose href is truthy and ends
with `".html"`). -/
def dnpStep (env : Env) (acc : World) (l : NavLink) : World :=
  match l.href with
  | some h => if h != "" && jsEndsWith h ".html" then preloadPage env h acc else acc
  | none => acc

/-- spa.js lines 307-315: the body of the `setTimeout` scheduled by
`initSPA`, preloading every in-site nav link after the quiescence delay. -/
def delayedNavPreload (env : Env) (w : World) : World :=
  w.navLinks.foldl (dnpStep env) w

/-- spa.js lines 278-305, the synchronous part of `initSPA`: seed
`loadedStyles` with every stylesheet link of the document whose href is
truthy and does not start with `"http"` (lines 280-285), and replace — not
push — the current history entry with the `{url: currentFilename}` state
(lines 300-304; the address is unchanged).  Listener registration installs
the handler functions modelled above, and the `setTimeout` schedules
`delayedNavPreload`. -/
def initSPA (w : World) : World :=
  let seeded := w.styles.headStyles.foldl
    (fun acc href =>
      if href != "" && !jsStartsWith href "http" then setAdd href acc else acc)
    w.styles.loadedStyles
  let w1 : World := { w with styles := ⟨seeded, w.styles.headStyles⟩ }
  let fname := jsOr (jsSplitPop w1.location) "index.html"
  { w1 with history := w1.history.dropLast ++ [⟨some fname, w1.docTitle, w1.location⟩] }

/-- A sequence of `loadPageStyles` calls, each feeding the style state of
the previous one (the pending lists are dropped). -/
def ensureAll (calls : List (List String)) (st : StyleSt) : StyleSt :=
  calls.foldl (fun acc ss => (loadPageStyles ss acc).1) st

/-- The stylesheet bookkeeping invariant: every stylesheet element in the
document is registered in `loadedStyles`, and no href has two elements. -/
def StyleInv (st : StyleSt) : Prop :=
  (∀ h, h ∈ st.headStyles → h ∈ st.loadedStyles) ∧ ∀ h, st.headStyles.count h ≤ 1

/-- Modelled from the spec: an href that is an absolute or external URL
reference — it carries a URL scheme (a colon inside its first path
segment, which covers `http:`, `https:`, `HTTP:`, `ftp:` and every other
scheme spelling) or is protocol-relative (`//host/...`).  The spec calls
everything else a same-origin relative path. -/
def specAbsExternal (h : String) : Bool :=
  (h.data.takeWhile fun c => c != '/').contains ':' || jsStartsWith h "//"

/-- Modelled from the spec (the C3 wording): `mainHTML` is the inner
markup of `<main>`, or empty exactly when `<main>` is absent; `title` is
the `<title>` text, or the fixed default exactly when `<title>` is absent;
`styles` keeps, in document order, exactly the stylesheet hrefs that are
same-origin relative paths ending in `.css`, excluding absolute and
external links. -/
def extractContentClaim (doc : Dom) : ExtractedContent :=
  { main := doc.mainInner.getD ""
    title := doc.titleText.getD "Music App"
    bodyClass := jsOr doc.bodyClassName ""
    styles := doc.links.foldl
      (fun acc l =>
        if l.rel == "stylesheet" then
          match l.href with
          | some h =>
              if !specAbsExternal h && jsEndsWith h ".css" then acc ++ [h] else acc
          | none => acc
        else acc)
      [] }

/-- The C3 claim amended to the filter the code applies: the title (and
the main markup) also fall back to their defaults when present but empty,
since the JS `||` operator treats the empty string as absent, and a
stylesheet href is kept exactly when it is nonempty, does not start with
the four characters `http`, and ends in `.css` — so absolute links whose
scheme is spelled any other way (`ftp://...`, `HTTP://...`) and
protocol-relative `//host/...` links are kept, not excluded. -/
def extractContentAmended (doc : Dom) : ExtractedContent :=
  { main :=
      match doc.mainInner with
      | some s => if s = "" then "" else s
      | none => ""
    title :=
      match doc.titleText with
      | some t => if t = "" then "Music App" else t
      | none => "Music App"
    bodyClass := if doc.bodyClassName = "" then "" else doc.bodyClassName
    styles := doc.links.filterMap fun l =>
      if l.rel == "stylesheet" then
        l.href.bind fun h =>
          if h != "" && !jsStartsWith h "http" && jsEndsWith h ".css" then some h
          else none
      else none }

/-- Modelled from the spec (the C8 wording): an href on which a link click
is intercepted — non-empty, same-document-relative (not an absolute or
external URL), not an anchor or mailto link, and ending in the `.html`
page extension. -/
def specSameDocLink (h : String) : Bool :=
  h != "" && !specAbsExternal h && !jsStartsWith h "#" && !jsStartsWith h "mailto:" &&
    jsEndsWith h ".html"

/-! Test fixtures: a small browser session used to instantiate the
hypotheses of the theorems below at concrete inputs. -/

/-- Parsed form of the fixture markup `INDEX-PAGE`. -/
def exDomIndex : Dom :=
  ⟨some "INDEX-MAIN", some "Home", "", [⟨"stylesheet", some "index.css"⟩]⟩

/-- Parsed form of the fixture markup `TRENDING-PAGE`. -/
def exDomTrending : Dom :=
  ⟨some "TRENDING-MAIN", some "Trending", "", [⟨"stylesheet", some "trending.css"⟩]⟩

/-- Parsed form of any other fixture markup (no main, no title, no links). -/
def exDomBlank : Dom := ⟨none, none, "", []⟩

/-- A parsed document with a present but empty `<title>` and one
stylesheet link whose href is the absolute external URL
`ftp://cdn.example.com/a.css`; it represents markup such as
`<html><head><title></title>
<link rel="stylesheet" href="ftp://cdn.example.com/a.css">
</head><body><main>M</main></body></html>`. -/
def exDomCex : Dom :=
  ⟨some "M", some "", "", [⟨"stylesheet", some "ftp://cdn.example.com/a.css"⟩]⟩

/-- Fixture HTML parser. -/
def exParse (s : String) : Dom :=
  if s = "INDEX-PAGE" then exDomIndex
  else if s = "TRENDING-PAGE" then exDomTrending
  else exDomBlank

/-- Fixture network: the two site pages resolve, anything else is a
transport error. -/
def exNet (u : String) (_ : Nat) : FetchOutcome :=
  if u = "index.html" then .resolved 200 "INDEX-PAGE"
  else if u = "trending.html" then .resolved 200 "TRENDING-PAGE"
  else if u = "albums.html" then .resolved 200 "ALBUMS-PAGE"
  else .rejected

/-- Fixture environment. -/
def exEnv : Env := ⟨exNet, exParse⟩

/-- Fixture environment whose network rejects every request. -/
def exEnvDown : Env := ⟨fun _ _ => .rejected, exParse⟩

/-- Fixture environment serving a 404 error page with a readable body. -/
def exEnv404 : Env := ⟨fun _ _ => .resolved 404 "OOPS-PAGE", exParse⟩

/-- Fixture main element of the entry document. -/
def exMain : MainEl := ⟨"1", "", "", "BOOT", 0⟩

/-- Fixture nav links of the entry document. -/
def exNavLinks : List NavLink :=
  [⟨some "index.html", false⟩, ⟨some "trending.html", false⟩, ⟨some "albums.html", false⟩]

/-- Fixture world: the session just after the entry document at
`index.html` finished loading. -/
def exWorld : World :=
  { pageCache := []
    styles := ⟨["base.css"], ["base.css"]⟩
    mainEl := some exMain
    docTitle := "Home"
    navLinks := exNavLinks
    history := [⟨none, "Home", "index.html"⟩]
    location := "index.html"
    fetchCount := 0
    hardNav := none }

/-! Helper lemmas about the embedded operations, shared by the claim
theorems below. -/

theorem mapGet_mapSet_self (k v : String) (m : List (String × String)) :
    mapGet k (mapSet k v m) = some v := by
  induction m with
  | nil => simp [mapGet, mapSet]
  | cons p rest ih =>
      by_cases h : p.1 = k
      · simp [mapGet, mapSet, h]
      · simp [mapGet, mapSet, h, ih]

theorem mapGet_mapSet_ne (k k' v : String) (m : List (String × String)) (h : k' ≠ k) :
    mapGet k (mapSet k' v m) = mapGet k m := by
  induction m with
  | nil => simp [mapGet, mapSet, h]
  | cons p rest ih =>
      by_cases hp : p.1 = k'
      · simp [mapGet, mapSet, hp, h]
      · by_cases hk : p.1 = k
        · simp [mapGet, mapSet, hp, hk, Ne.symm h]
        · simp [mapGet, mapSet, hp, hk, ih]

theorem applyContent_fetchCount (env : Env) (url html : String) (m1 : MainEl) (w2 : World) :
    (applyContent env url html m1 w2).fetchCount = w2.fetchCount := rfl

theorem applyContent_pageCache (env : Env) (url html : String) (m1 : MainEl) (w2 : World) :
    (applyContent env url html m1 w2).pageCache = w2.pageCache := rfl

theorem applyContent_hardNav (env : Env) (url html : String) (m1 : MainEl) (w2 : World) :
    (applyContent env url html m1 w2).hardNav = w2.hardNav := rfl

theorem applyContent_history (env : Env) (url html : String) (m1 : MainEl) (w2 : World) :
    (applyContent env url html m1 w2).history =
      w2.history ++ [⟨some url, (extractContent (env.parse html)).title, url⟩] := rfl

theorem applyContent_navLinks (env : Env) (url html : String) (m1 : MainEl) (w2 : World) :
    (applyContent env url html m1 w2).navLinks = updateActiveNav url w2.navLinks := rfl

theorem applyContent_mainEl (env : Env) (url html : String) (m1 : MainEl) (w2 : World) :
    (applyContent env url html m1 w2).mainEl =
      some ⟨"1", "", "opacity 0.15s ease", (extractContent (env.parse html)).main, 0⟩ := rfl

theorem navigateTo_no_main (env : Env) (url : String) (w : World) (hm : w.mainEl = none) :
    navigateTo env url w = w := by
  simp [navigateTo, hm]

theorem navigateTo_cached (env : Env) (url : String) (w : World) (m0 : MainEl) (html : String)
    (hm : w.mainEl = some m0) (hc : mapGet url w.pageCache = some html) :
    navigateTo env url w =
      applyContent env url html (dimMain m0) { w with mainEl := some (dimMain m0) } := by
  simp [navigateTo, navResolve, hm, hc]

theorem navigateTo_fetch_ok (env : Env) (url : String) (w : World) (m0 : MainEl)
    (st : Nat) (b : String) (hm : w.mainEl = some m0) (hc : mapGet url w.pageCache = none)
    (hn : env.net url w.fetchCount = FetchOutcome.resolved st b) :
    navigateTo env url w =
      applyContent env url b (dimMain m0)
        { w with mainEl := some (dimMain m0)
                 fetchCount := w.fetchCount + 1
                 pageCache := mapSet url b w.pageCache } := by
  simp [navigateTo, navResolve, hm, hc, hn]

theorem navigateTo_fetch_fail (env : Env) (url : String) (w : World) (m0 : MainEl)
    (hm : w.mainEl = some m0) (hc : mapGet url w.pageCache = none)
    (hn : env.net url w.fetchCount = FetchOutcome.rejected) :
    navigateTo env url w =
      { w with mainEl := some (dimMain m0)
               fetchCount := w.fetchCount + 1
               hardNav := some url } := by
  simp [navigateTo, navResolve, hm, hc, hn]

theorem preloadPage_cached (env : Env) (url : String) (w : World) (html : String)
    (hc : mapGet url w.pageCache = some html) :
    preloadPage env url w = w := by
  simp [preloadPage, hc]

theorem preloadPage_fetch_ok (env : Env) (url : String) (w : World) (st : Nat) (b : String)
    (hc : mapGet url w.pageCache = none)
    (hn : env.net url w.fetchCount = FetchOutcome.resolved st b) :
    preloadPage env url w =
      { w with fetchCount := w.fetchCount + 1
               pageCache := mapSet url b w.pageCache } := by
  simp [preloadPage, hc, hn]

theorem preloadPage_fetch_fail (env : Env) (url : String) (w : World)
    (hc : mapGet url w.pageCache = none)
    (hn : env.net url w.fetchCount = FetchOutcome.rejected) :
    preloadPage env url w = { w with fetchCount := w.fetchCount + 1 } := by
  simp [preloadPage, hc, hn]

/-! Claim theorems. -/

/-- C1: for every URL u, if the page cache already holds an entry for u
then `navigateTo u` and `preloadPage u` issue no network request and the
markup used is the stored one; if it does not, `navigateTo u` issues
exactly one request and, on success, stores the raw response body under u
— so resolving twice in sequence issues at most one request, the second
run served from the cache. -/
theorem c1_pageCache_single_fetch (env : Env) (u : String) (w : World) :
    (∀ m, mapGet u w.pageCache = some m →
        (navigateTo env u w).fetchCount = w.fetchCount ∧
        preloadPage env u w = w ∧
        (∀ m0, w.mainEl = some m0 →
          (navigateTo env u w).mainEl.map MainEl.innerHTML =
            some (extractContent (env.parse m)).main)) ∧
    (mapGet u w.pageCache = none → ∀ m0, w.mainEl = some m0 →
        (navigateTo env u w).fetchCount = w.fetchCount + 1 ∧
        ∀ st b, env.net u w.fetchCount = FetchOutcome.resolved st b →
          mapGet u (navigateTo env u w).pageCache = some b ∧
          (navigateTo env u (navigateTo env u w)).fetchCount = w.fetchCount + 1) := by
  constructor
  · intro m hm
    refine ⟨?_, preloadPage_cached env u w m hm, ?_⟩
    · cases hm0 : w.mainEl with
      | none => rw [navigateTo_no_main env u w hm0]
      | some m0 =>
          rw [navigateTo_cached env u w m0 m hm0 hm, applyContent_fetchCount]
    · intro m0 hm0
      rw [navigateTo_cached env u w m0 m hm0 hm, applyContent_mainEl]
      rfl
  · intro hc m0 hm0
    constructor
    · cases hn : env.net u w.fetchCount with
      | resolved st b =>
          rw [navigateTo_fetch_ok env u w m0 st b hm0 hc hn, applyContent_fetchCount]
      | rejected =>
          rw [navigateTo_fetch_fail env u w m0 hm0 hc hn]
    · intro st b hn
      rw [navigateTo_fetch_ok env u w m0 st b hm0 hc hn]
      constructor
      · rw [applyContent_pageCache]
        exact mapGet_mapSet_self u b _
      · rw [navigateTo_cached env u _ _ b (applyContent_mainEl ..)
          (by rw [applyContent_pageCache]; exact mapGet_mapSet_self u b _)]
        rw [applyContent_fetchCount, applyContent_fetchCount]

/-- Witness for C1 at a concrete session: navigating to the uncached
`trending.html` issues one request, stores the body, and a second
navigation to the same URL is served from the cache with no further
request. -/
theorem c1_pageCache_single_fetch_wit :
    (navigateTo exEnv "trending.html" exWorld).fetchCount = 1 ∧
    mapGet "trending.html" (navigateTo exEnv "trending.html" exWorld).pageCache =
      some "TRENDING-PAGE" ∧
    (navigateTo exEnv "trending.html" (navigateTo exEnv "trending.html" exWorld)).fetchCount = 1 := by
  have h := (c1_pageCache_single_fetch exEnv "trending.html" exWorld).2
    (by decide) exMain (by rfl)
  have h2 := h.2 200 "TRENDING-PAGE" (by decide)
  exact ⟨h.1, h2.1, h2.2⟩

/-- C5: when the document has a content region, every terminating run of
`navigateTo url` either ends the SPA transition with the region at full
opacity and pointer interaction re-enabled, or performs a full browser
navigation to `url` — the dimmed state set at the start of the navigation
is never the final state. -/
theorem c5_navigate_restores_ui (env : Env) (url : String) (w : World) (m0 : MainEl)
    (hm : w.mainEl = some m0) :
    (navigateTo env url w).hardNav = some url ∨
    ∃ m, (navigateTo env url w).mainEl = some m ∧ m.opacity = "1" ∧ m.pointerEvents = "" := by
  cases hc : mapGet url w.pageCache with
  | some html =>
      right
      rw [navigateTo_cached env url w m0 html hm hc, applyContent_mainEl]
      exact ⟨_, rfl, rfl, rfl⟩
  | none =>
      cases hn : env.net url w.fetchCount with
      | resolved st b =>
          right
          rw [navigateTo_fetch_ok env url w m0 st b hm hc hn, applyContent_mainEl]
          exact ⟨_, rfl, rfl, rfl⟩
      | rejected =>
          left
          rw [navigateTo_fetch_fail env url w m0 hm hc hn]

/-- Witness for C5 at a concrete session. -/
theorem c5_navigate_restores_ui_wit :
    (navigateTo exEnv "trending.html" exWorld).hardNav = some "trending.html" ∨
    ∃ m, (navigateTo exEnv "trending.html" exWorld).mainEl = some m ∧
      m.opacity = "1" ∧ m.pointerEvents = "" :=
  c5_navigate_restores_ui exEnv "trending.html" exWorld exMain rfl

/-- C6: when the network fetch for `url` rejects, `navigateTo url` stores
no cache entry and recovers by a full browser navigation (its only effect
beyond that is the dimmed main and the request counter — no error is
surfaced), `preloadPage url` stores no entry and changes nothing but the
request counter, and a later navigation to the same URL issues a fresh
request (retry is possible). -/
theorem c6_fetch_failure_no_store (env : Env) (url : String) (w : World)
    (hc : mapGet url w.pageCache = none)
    (hn : env.net url w.fetchCount = FetchOutcome.rejected) :
    (navigateTo env url w).pageCache = w.pageCache ∧
    (∀ m0, w.mainEl = some m0 →
      navigateTo env url w =
        { w with mainEl := some (dimMain m0)
                 fetchCount := w.fetchCount + 1
                 hardNav := some url }) ∧
    preloadPage env url w = { w with fetchCount := w.fetchCount + 1 } ∧
    mapGet url (preloadPage env url w).pageCache = none ∧
    (∀ m0, w.mainEl = some m0 →
      (navigateTo env url (preloadPage env url w)).fetchCount = w.fetchCount + 2) := by
  have hpre := preloadPage_fetch_fail env url w hc hn
  refine ⟨?_, ?_, hpre, ?_, ?_⟩
  · cases hm0 : w.mainEl with
    | none => rw [navigateTo_no_main env url w hm0]
    | some m0 => rw [navigateTo_fetch_fail env url w m0 hm0 hc hn]
  · intro m0 hm0
    exact navigateTo_fetch_fail env url w m0 hm0 hc hn
  · rw [hpre]
    exact hc
  · intro m0 hm0
    rw [hpre]
    have hc' : mapGet url ({ w with fetchCount := w.fetchCount + 1 } : World).pageCache = none := hc
    have hm' : ({ w with fetchCount := w.fetchCount + 1 } : World).mainEl = some m0 := hm0
    cases hn' : env.net url ({ w with fetchCount := w.fetchCount + 1 } : World).fetchCount with
    | resolved st b =>
        rw [navigateTo_fetch_ok env url _ m0 st b hm' hc' hn', applyContent_fetchCount]
    | rejected =>
        rw [navigateTo_fetch_fail env url _ m0 hm' hc' hn']

/-- Witness for C6 at a concrete session whose network is down. -/
theorem c6_fetch_failure_no_store_wit :
    (navigateTo exEnvDown "trending.html" exWorld).pageCache = exWorld.pageCache ∧
    preloadPage exEnvDown "trending.html" exWorld =
      { exWorld with fetchCount := exWorld.fetchCount + 1 } ∧
    (navigateTo exEnvDown "trending.html"
        (preloadPage exEnvDown "trending.html" exWorld)).fetchCount = 2 := by
  have h := c6_fetch_failure_no_store exEnvDown "trending.html" exWorld (by decide) (by rfl)
  exact ⟨h.1, h.2.2.1, h.2.2.2.2 exMain rfl⟩

/-- C10: the module treats any fetch that resolves with a readable text
body as success regardless of the HTTP status: the body is stored in the
page cache under the requested URL and, for `navigateTo`, rendered as the
page content with no hard fallback; only a rejected fetch takes the
no-store path, and in `navigateTo` the hard-fallback navigation. -/
theorem c10_http_error_body_cached (env : Env) (url : String) (w : World) (m0 : MainEl)
    (hc : mapGet url w.pageCache = none) (hm : w.mainEl = some m0) :
    (∀ st b, env.net url w.fetchCount = FetchOutcome.resolved st b →
        mapGet url (navigateTo env url w).pageCache = some b ∧
        (navigateTo env url w).mainEl.map MainEl.innerHTML =
          some (extractContent (env.parse b)).main ∧
        (navigateTo env url w).hardNav = w.hardNav ∧
        mapGet url (preloadPage env url w).pageCache = some b) ∧
    (env.net url w.fetchCount = FetchOutcome.rejected →
        (navigateTo env url w).pageCache = w.pageCache ∧
        (navigateTo env url w).hardNav = some url ∧
        (preloadPage env url w).pageCache = w.pageCache) := by
  constructor
  · intro st b hn
    rw [navigateTo_fetch_ok env url w m0 st b hm hc hn,
        preloadPage_fetch_ok env url w st b hc hn]
    refine ⟨?_, ?_, applyContent_hardNav .., ?_⟩
    · rw [applyContent_pageCache]
      exact mapGet_mapSet_self url b _
    · rw [applyContent_mainEl]
      rfl
    · exact mapGet_mapSet_self url b _
  · intro hn
    rw [navigateTo_fetch_fail env url w m0 hm hc hn,
        preloadPage_fetch_fail env url w hc hn]
    exact ⟨rfl, rfl, rfl⟩

/-- Witness for C10: a 404 error page with a readable body is cached and
rendered. -/
theorem c10_http_error_body_cached_wit :
    mapGet "missing.html" (navigateTo exEnv404 "missing.html" exWorld).pageCache =
      some "OOPS-PAGE" ∧
    (navigateTo exEnv404 "missing.html" exWorld).hardNav = none := by
  have h := (c10_http_error_body_cached exEnv404 "missing.html" exWorld exMain
      (by decide) rfl).1 404 "OOPS-PAGE" (by rfl)
  exact ⟨h.1, h.2.2.1⟩

/-- C2: in a session that holds the entry page `index.html` in its cache,
navigating to the uncached `trending.html` and then handling a popstate
event whose state is `{url: "index.html"}` re-renders the original index
content from the page cache: the request counter does not move and no
hard fallback occurs during the popstate handling. -/
theorem c2_popstate_roundtrip (env : Env) (w : World) (idx : String) (m0 : MainEl)
    (st : Nat) (b : String)
    (hidx : mapGet "index.html" w.pageCache = some idx)
    (hm : w.mainEl = some m0)
    (htr : mapGet "trending.html" w.pageCache = none)
    (hnet : env.net "trending.html" w.fetchCount = FetchOutcome.resolved st b) :
    (handlePopState env (some "index.html") (navigateTo env "trending.html" w)).fetchCount =
      (navigateTo env "trending.html" w).fetchCount ∧
    (handlePopState env (some "index.html") (navigateTo env "trending.html" w)).mainEl.map
        MainEl.innerHTML = some (extractContent (env.parse idx)).main ∧
    (handlePopState env (some "index.html") (navigateTo env "trending.html" w)).hardNav =
      (navigateTo env "trending.html" w).hardNav := by
  have h1 := navigateTo_fetch_ok env "trending.html" w m0 st b hm htr hnet
  have hidx1 : mapGet "index.html" (navigateTo env "trending.html" w).pageCache = some idx := by
    rw [h1, applyContent_pageCache]
    show mapGet "index.html" (mapSet "trending.html" b w.pageCache) = some idx
    rw [mapGet_mapSet_ne _ _ _ _ (by decide)]
    exact hidx
  have hm1 : (navigateTo env "trending.html" w).mainEl =
      some ⟨"1", "", "opacity 0.15s ease", (extractContent (env.parse b)).main, 0⟩ := by
    rw [h1]
    exact applyContent_mainEl ..
  have hps : handlePopState env (some "index.html") (navigateTo env "trending.html" w) =
      navigateTo env "index.html" (navigateTo env "trending.html" w) := by
    simp [handlePopState]
  rw [hps, navigateTo_cached env "index.html" _ _ idx hm1 hidx1]
  refine ⟨applyContent_fetchCount .., ?_, applyContent_hardNav ..⟩
  rw [applyContent_mainEl]
  rfl

/-- Witness for C2: the session preloads `index.html`, navigates to
`trending.html`, and a synthetic popstate re-renders the index content. -/
theorem c2_popstate_roundtrip_wit :
    (handlePopState exEnv (some "index.html")
        (navigateTo exEnv "trending.html"
          (preloadPage exEnv "index.html" exWorld))).mainEl.map MainEl.innerHTML =
      some (extractContent (exEnv.parse "INDEX-PAGE")).main ∧
    (handlePopState exEnv (some "index.html")
        (navigateTo exEnv "trending.html"
          (preloadPage exEnv "index.html" exWorld))).fetchCount =
      (navigateTo exEnv "trending.html" (preloadPage exEnv "index.html" exWorld)).fetchCount := by
  have h := c2_popstate_roundtrip exEnv (preloadPage exEnv "index.html" exWorld)
    "INDEX-PAGE" exMain 200 "TRENDING-PAGE" (by decide) (by decide) (by decide) (by decide)
  exact ⟨h.2.1, h.1⟩

theorem preloadPage_history (env : Env) (u : String) (w : World) :
    (preloadPage env u w).history = w.history := by
  unfold preloadPage
  split
  · rfl
  · split <;> rfl

theorem dnpStep_history (env : Env) (acc : World) (l : NavLink) :
    (dnpStep env acc l).history = acc.history := by
  unfold dnpStep
  split
  · split
    · rw [preloadPage_history]
    · rfl
  · rfl

theorem foldl_dnpStep_history (env : Env) (ls : List NavLink) (acc : World) :
    (ls.foldl (dnpStep env) acc).history = acc.history := by
  induction ls generalizing acc with
  | nil => rfl
  | cons l ls ih => rw [List.foldl_cons, ih, dnpStep_history]

/-- C7: a `navigateTo url` run that completes its SPA transition pushes
exactly one new history entry carrying the state `{url}` (a push, not a
replace); initialization replaces the current entry — the history length
is unchanged — with the state `{url: currentFilename}`, and neither the
initialization nor its delayed nav-link preload pushes an entry. -/
theorem c7_history_push_and_replace (env : Env) (url : String) (w : World) :
    (∀ m0, w.mainEl = some m0 →
      ((mapGet url w.pageCache).isSome ∨
        ∃ st b, env.net url w.fetchCount = FetchOutcome.resolved st b) →
      ∃ t, (navigateTo env url w).history = w.history ++ [⟨some url, t, url⟩]) ∧
    (initSPA w).history =
      w.history.dropLast ++
        [⟨some (jsOr (jsSplitPop w.location) "index.html"), w.docTitle, w.location⟩] ∧
    (w.history ≠ [] → (initSPA w).history.length = w.history.length) ∧
    (delayedNavPreload env w).history = w.history := by
  refine ⟨?_, rfl, ?_, foldl_dnpStep_history env w.navLinks w⟩
  · intro m0 hm hres
    rcases hres with hhit | ⟨st, b, hn⟩
    · obtain ⟨html, hc⟩ := Option.isSome_iff_exists.mp hhit
      refine ⟨(extractContent (env.parse html)).title, ?_⟩
      rw [navigateTo_cached env url w m0 html hm hc, applyContent_history]
    · cases hc : mapGet url w.pageCache with
      | some html =>
          refine ⟨(extractContent (env.parse html)).title, ?_⟩
          rw [navigateTo_cached env url w m0 html hm hc, applyContent_history]
      | none =>
          refine ⟨(extractContent (env.parse b)).title, ?_⟩
          rw [navigateTo_fetch_ok env url w m0 st b hm hc hn, applyContent_history]
  · intro hne
    show (w.history.dropLast ++ [_]).length = w.history.length
    rw [List.length_append, List.length_dropLast]
    have := List.length_pos.mpr hne
    simp
    omega

/-- Witness for C7: the concrete trending navigation pushes one entry, and
initialization keeps the history length at one. -/
theorem c7_history_push_and_replace_wit :
    (∃ t, (navigateTo exEnv "trending.html" exWorld).history =
        exWorld.history ++ [⟨some "trending.html", t, "trending.html"⟩]) ∧
    (initSPA exWorld).history.length = exWorld.history.length := by
  have h := c7_history_push_and_replace exEnv "trending.html" exWorld
  exact ⟨h.1 exMain rfl (Or.inr ⟨200, "TRENDING-PAGE", by decide⟩), h.2.2.1 (by decide)⟩

theorem jsOr_default_ne (s : String) : jsOr s "index.html" ≠ "" := by
  unfold jsOr
  split
  · decide
  · next h => exact h

theorem activeCond_eq (href fn : String) (hfn : fn ≠ "") :
    (href == fn || (fn == "index.html" && href == "index.html") ||
      (fn == "" && href == "index.html")) = (href == fn) := by
  have h3 : (fn == "") = false := beq_eq_false_iff_ne.mpr hfn
  rw [h3, Bool.false_and, Bool.or_false]
  by_cases h1 : href = fn
  · subst h1
    simp
  · have hb : (href == fn) = false := beq_eq_false_iff_ne.mpr h1
    rw [hb, Bool.false_or]
    by_cases h2 : fn = "index.html"
    · subst h2
      have hh : (href == "index.html") = false := beq_eq_false_iff_ne.mpr h1
      rw [hh, Bool.and_false]
    · have hh : (fn == "index.html") = false := beq_eq_false_iff_ne.mpr h2
      rw [hh, Bool.false_and]

theorem updateActiveNav_eq (url : String) (links : List NavLink) :
    updateActiveNav url links =
      links.map fun l =>
        { l with active := l.href.getD "" == jsOr (jsSplitPop url) "index.html" } := by
  show links.map _ = links.map _
  apply List.map_congr_left
  intro l _
  have := activeCond_eq (l.href.getD "") (jsOr (jsSplitPop url) "index.html")
    (jsOr_default_ne (jsSplitPop url))
  simp only [this]

theorem countP_updateActiveNav (url : String) (links : List NavLink) :
    (updateActiveNav url links).countP (fun l => l.active) =
      links.countP (fun l => l.href.getD "" == jsOr (jsSplitPop url) "index.html") := by
  rw [updateActiveNav_eq, List.countP_map]
  rfl

/-- C9: after a `navigateTo url` run that completes its SPA transition, in
a document where exactly one nav link has an href equal (case-sensitive)
to the filename portion of `url` — with the bare-root empty filename
standing for `index.html` — exactly one nav link carries the active
marker, and it is that one. -/
theorem c9_active_nav_unique (env : Env) (url : String) (w : World) (m0 : MainEl)
    (hm : w.mainEl = some m0)
    (hres : (mapGet url w.pageCache).isSome ∨
      ∃ st b, env.net url w.fetchCount = FetchOutcome.resolved st b)
    (huniq : w.navLinks.countP
        (fun l => l.href.getD "" == jsOr (jsSplitPop url) "index.html") = 1) :
    (navigateTo env url w).navLinks.countP (fun l => l.active) = 1 ∧
    ∀ l ∈ (navigateTo env url w).navLinks, l.active = true →
      l.href.getD "" = jsOr (jsSplitPop url) "index.html" := by
  have hnav : (navigateTo env url w).navLinks = updateActiveNav url w.navLinks := by
    rcases hres with hhit | ⟨st, b, hn⟩
    · obtain ⟨html, hc⟩ := Option.isSome_iff_exists.mp hhit
      rw [navigateTo_cached env url w m0 html hm hc, applyContent_navLinks]
    · cases hc : mapGet url w.pageCache with
      | some html => rw [navigateTo_cached env url w m0 html hm hc, applyContent_navLinks]
      | none => rw [navigateTo_fetch_ok env url w m0 st b hm hc hn, applyContent_navLinks]
  rw [hnav]
  constructor
  · rw [countP_updateActiveNav]
    exact huniq
  · intro l hl hact
    rw [updateActiveNav_eq] at hl
    obtain ⟨l0, _, rfl⟩ := List.mem_map.mp hl
    exact beq_iff_eq.mp hact

/-- Witness for C9 at the concrete session: after navigating to
`albums.html`, exactly one nav link is active. -/
theorem c9_active_nav_unique_wit :
    (navigateTo exEnv "albums.html" exWorld).navLinks.countP (fun l => l.active) = 1 := by
  exact (c9_active_nav_unique exEnv "albums.html" exWorld exMain rfl
    (Or.inr ⟨200, "ALBUMS-PAGE", by decide⟩) (by decide)).1

theorem lps_acc (ss : List String) (st : StyleSt) (init : List String) :
    ss.foldl loadStylesStep (st, init) =
      ((ss.foldl loadStylesStep (st, [])).1, init ++ (ss.foldl loadStylesStep (st, [])).2) := by
  induction ss generalizing st init with
  | nil => simp
  | cons a ss ih =>
      rw [List.foldl_cons, List.foldl_cons]
      by_cases h : a ∈ st.loadedStyles
      · rw [show loadStylesStep (st, init) a = (st, init) from by simp [loadStylesStep, h],
          show loadStylesStep (st, []) a = (st, []) from by simp [loadStylesStep, h]]
        exact ih st init
      · rw [show loadStylesStep (st, init) a =
            (⟨st.loadedStyles ++ [a], st.headStyles ++ [a]⟩, init ++ [a]) from by
              simp [loadStylesStep, h],
          show loadStylesStep (st, []) a =
            (⟨st.loadedStyles ++ [a], st.headStyles ++ [a]⟩, [a]) from by
              simp [loadStylesStep, h]]
        rw [ih _ (init ++ [a]), ih _ [a]]
        simp

theorem loadPageStyles_cons (a : String) (ss : List String) (st : StyleSt) :
    loadPageStyles (a :: ss) st =
      if a ∈ st.loadedStyles then loadPageStyles ss st
      else ((loadPageStyles ss ⟨st.loadedStyles ++ [a], st.headStyles ++ [a]⟩).1,
        a :: (loadPageStyles ss ⟨st.loadedStyles ++ [a], st.headStyles ++ [a]⟩).2) := by
  unfold loadPageStyles
  rw [List.foldl_cons]
  by_cases h : a ∈ st.loadedStyles
  · rw [if_pos h, show loadStylesStep (st, []) a = (st, []) from by simp [loadStylesStep, h]]
  · rw [if_neg h, show loadStylesStep (st, []) a =
        (⟨st.loadedStyles ++ [a], st.headStyles ++ [a]⟩, [a]) from by
          simp [loadStylesStep, h]]
    rw [lps_acc ss _ [a]]
    rfl

theorem styleInv_step (st : StyleSt) (a : String) (hinv : StyleInv st)
    (ha : a ∉ st.loadedStyles) :
    StyleInv ⟨st.loadedStyles ++ [a], st.headStyles ++ [a]⟩ := by
  obtain ⟨hsub, hcnt⟩ := hinv
  constructor
  · intro h hh
    rcases List.mem_append.mp hh with h1 | h1
    · exact List.mem_append.mpr (Or.inl (hsub h h1))
    · exact List.mem_append.mpr (Or.inr h1)
  · intro h
    show (st.headStyles ++ [a]).count h ≤ 1
    rw [List.count_append]
    by_cases he : h = a
    · subst he
      have h0 : st.headStyles.count h = 0 :=
        List.count_eq_zero.mpr (fun hmem => ha (hsub h hmem))
      simp [h0]
    · have h0 : ([a].count h) = 0 := List.count_eq_zero.mpr (by simp [he])
      rw [h0]
      simpa using hcnt h

theorem loadPageStyles_inv (ss : List String) (st : StyleSt) (hinv : StyleInv st) :
    StyleInv (loadPageStyles ss st).1 := by
  induction ss generalizing st with
  | nil => exact hinv
  | cons a ss ih =>
      rw [loadPageStyles_cons]
      by_cases h : a ∈ st.loadedStyles
      · rw [if_pos h]
        exact ih st hinv
      · rw [if_neg h]
        exact ih _ (styleInv_step st a hinv h)

theorem loadPageStyles_skip (ss : List String) (st : StyleSt) (x : String)
    (hx : x ∈ st.loadedStyles) :
    (loadPageStyles ss st).1.headStyles.count x = st.headStyles.count x ∧
    x ∉ (loadPageStyles ss st).2 := by
  induction ss generalizing st with
  | nil => exact ⟨rfl, by simp [loadPageStyles]⟩
  | cons a ss ih =>
      rw [loadPageStyles_cons]
      by_cases h : a ∈ st.loadedStyles
      · rw [if_pos h]
        exact ih st hx
      · rw [if_neg h]
        have hxa : x ≠ a := fun he => h (he ▸ hx)
        have hmem : x ∈ (⟨st.loadedStyles ++ [a], st.headStyles ++ [a]⟩ : StyleSt).loadedStyles :=
          List.mem_append.mpr (Or.inl hx)
        have hrec := ih _ hmem
        constructor
        · show (loadPageStyles ss _).1.headStyles.count x = st.headStyles.count x
          rw [hrec.1]
          show (st.headStyles ++ [a]).count x = st.headStyles.count x
          rw [List.count_append, List.count_eq_zero.mpr (by simp [hxa] :
            x ∉ [a])]
          rfl
        · intro hmem2
          rcases List.mem_cons.mp hmem2 with h1 | h1
          · exact hxa h1
          · exact hrec.2 h1

theorem ensure_twice (x : String) (st : StyleSt) (hx : x ∉ st.loadedStyles)
    (h0 : st.headStyles.count x = 0) :
    (loadPageStyles [x] (loadPageStyles [x] st).1).1.headStyles.count x = 1 := by
  have h1 : loadPageStyles [x] st =
      ((⟨st.loadedStyles ++ [x], st.headStyles ++ [x]⟩ : StyleSt), [x]) := by
    rw [loadPageStyles_cons, if_neg hx]
    rfl
  rw [h1]
  have hmem : x ∈ (⟨st.loadedStyles ++ [x], st.headStyles ++ [x]⟩ : StyleSt).loadedStyles :=
    List.mem_append.mpr (Or.inr (by simp))
  rw [show loadPageStyles [x] (⟨st.loadedStyles ++ [x], st.headStyles ++ [x]⟩ : StyleSt) =
      ((⟨st.loadedStyles ++ [x], st.headStyles ++ [x]⟩ : StyleSt), []) from by
    rw [loadPageStyles_cons, if_pos hmem]
    rfl]
  show (st.headStyles ++ [x]).count x = 1
  simp [List.count_append, h0]

theorem stylesCompleted_iff (ev : String → Option StyleEvent) (pending : List String) :
    stylesCompleted ev pending = true ↔ ∀ h ∈ pending, (ev h).isSome := by
  unfold stylesCompleted
  rw [List.all_eq_true]
  constructor
  · intro hall h hh
    have hp := hall h hh
    cases hev : ev h with
    | some e => simp [hev]
    | none =>
        rw [hev] at hp
        exact absurd hp (by decide)
  · intro hall h hh
    have hp := hall h hh
    cases hev : ev h with
    | some e => cases e <;> rfl
    | none =>
        rw [hev] at hp
        simp at hp

/-- C4: across any sequence of `loadPageStyles` calls the bookkeeping
invariant is preserved, so at most one stylesheet element is ever in the
document per href; hrefs already in `loadedStyles` are skipped (no new
element, no pending load); calling ensure twice on a fresh href leaves
exactly one element in the head; and a call completes exactly when each
stylesheet it newly appended has fired its load-or-error event — the
error event settling it just as the load event does. -/
theorem c4_styleLoader_idempotent :
    (∀ (calls : List (List String)) (st : StyleSt), StyleInv st → StyleInv (ensureAll calls st)) ∧
    (∀ (ss : List String) (st : StyleSt) (x : String), x ∈ st.loadedStyles →
      (loadPageStyles ss st).1.headStyles.count x = st.headStyles.count x ∧
      x ∉ (loadPageStyles ss st).2) ∧
    (∀ (x : String) (st : StyleSt), x ∉ st.loadedStyles → st.headStyles.count x = 0 →
      (loadPageStyles [x] (loadPageStyles [x] st).1).1.headStyles.count x = 1) ∧
    (∀ (ss : List String) (st : StyleSt) (ev : String → Option StyleEvent),
      stylesCompleted ev (loadPageStyles ss st).2 = true ↔
        ∀ h ∈ (loadPageStyles ss st).2, (ev h).isSome) := by
  refine ⟨?_, loadPageStyles_skip, ensure_twice, fun ss st ev => stylesCompleted_iff ev _⟩
  intro calls
  induction calls with
  | nil => intro st h; exact h
  | cons c cs ih => intro st h; exact ih _ (loadPageStyles_inv c st h)

/-- Witness for C4: ensuring `a.css` twice from an empty style state
leaves exactly one stylesheet element for it in the head. -/
theorem c4_styleLoader_idempotent_wit :
    (loadPageStyles ["a.css"]
      (loadPageStyles ["a.css"] (⟨[], []⟩ : StyleSt)).1).1.headStyles.count "a.css" = 1 :=
  (c4_styleLoader_idempotent).2.2.1 "a.css" ⟨[], []⟩ (by simp) (by simp)

/-- C3 counterexample: on a document with a present but empty `<title>`
and a stylesheet link to the absolute external URL
`ftp://cdn.example.com/a.css`, the code returns the default title even
though `<title>` is present, and keeps the external href in `styles`
(its filter only excludes hrefs starting with the lowercase characters
`http`), so `extractContent` differs from the behaviour the claim
states. -/
theorem c3_extractContent_cex :
    extractContent exDomCex ≠ extractContentClaim exDomCex ∧
    (extractContent exDomCex).title = "Music App" ∧
    (extractContentClaim exDomCex).title = "" ∧
    (extractContent exDomCex).styles = ["ftp://cdn.example.com/a.css"] ∧
    specAbsExternal "ftp://cdn.example.com/a.css" = true ∧
    (extractContentClaim exDomCex).styles = [] := by
  decide

theorem extractStyles_eq (ls : List LinkEl) (acc : List String) :
    ls.foldl
      (fun acc l =>
        if l.rel == "stylesheet" then
          match l.href with
          | some h =>
              if h != "" && !jsStartsWith h "http" && jsEndsWith h ".css" then
                acc ++ [h]
              else acc
          | none => acc
        else acc)
      acc =
      acc ++ ls.filterMap (fun l =>
        if l.rel == "stylesheet" then
          l.href.bind fun h =>
            if h != "" && !jsStartsWith h "http" && jsEndsWith h ".css" then some h
            else none
        else none) := by
  induction ls generalizing acc with
  | nil => simp
  | cons l ls ih =>
      rw [List.foldl_cons, List.filterMap_cons]
      cases hrel : (l.rel == "stylesheet") with
      | false =>
          simp only [hrel, Bool.false_eq_true, if_false, Option.bind]
          exact ih acc
      | true =>
          cases hh : l.href with
          | none =>
              simp only [hrel, if_true, hh]
              exact ih acc
          | some h =>
              by_cases hcond : (h != "" && !jsStartsWith h "http" && jsEndsWith h ".css") = true
              · simp only [hrel, if_true, hh, hcond, Option.some_bind]
                rw [ih (acc ++ [h])]
                simp
              · simp only [hrel, if_true, hh, Option.some_bind]
                rw [if_neg hcond, if_neg hcond]
                exact ih acc

/-- C3 amended: `extractContent` is total (it consumes the output of the
never-throwing browser parser); `mainHTML` is the inner markup of `<main>`
with the empty string both when `<main>` is absent and when its markup is
empty; `title` is the `<title>` text, falling back to the fixed default
`Music App` both when `<title>` is absent and when its text is empty (the
JS `||` conflates the two); and `styles` lists, in document order, the
stylesheet hrefs that are nonempty, do not start with the four characters
`http`, and end in `.css` — which excludes ordinary `http://`/`https://`
absolute links but keeps absolute or external hrefs spelled any other way
(`ftp://`, `HTTP://`, protocol-relative `//host/x.css`). -/
theorem c3_extractContent_amended (doc : Dom) :
    extractContent doc = extractContentAmended doc := by
  unfold extractContent extractContentAmended
  rw [extractStyles_eq]
  cases hm : doc.mainInner <;> cases ht : doc.titleText <;>
    simp [jsOrOpt, jsOr]

/-- C8 counterexample: a click on an anchor whose href is the absolute
external URL `ftp://cdn.example.com/page.html` is intercepted by the code
(the filter only tests the lowercase four characters `http`), although the
claim requires every absolute external link to fall through to default
browser handling. -/
theorem c8_linkClick_cex :
    handleLinkClick (some "ftp://cdn.example.com/page.html") =
      ClickAction.intercept "ftp://cdn.example.com/page.html" ∧
    specSameDocLink "ftp://cdn.example.com/page.html" = false := by
  decide

/-- C8 amended: a click on an anchor is intercepted (default prevented,
`navigateTo` invoked on the href) exactly when its href attribute is
present, non-empty, does not start with the four characters `http` (the
test the code uses for absolute external URLs — links with any other
scheme spelling or protocol-relative links are not excluded), does not
start with `#` or `mailto:`, and ends in `.html`; every other click falls
through to default handling. -/
theorem c8_linkClick_amended (o : Option String) (h : String) :
    handleLinkClick o = ClickAction.intercept h ↔
      o = some h ∧
        (h != "" && !jsStartsWith h "http" && !jsStartsWith h "#" &&
          !jsStartsWith h "mailto:" && jsEndsWith h ".html") = true := by
  cases o with
  | none => simp [handleLinkClick]
  | some a =>
      simp only [handleLinkClick]
      by_cases hc : (a == "" || jsStartsWith a "http" || jsStartsWith a "#" ||
          jsStartsWith a "mailto:" || !jsEndsWith a ".html") = true
      · rw [if_pos hc]
        constructor
        · intro hctr
          exact absurd hctr (by simp)
        · rintro ⟨hoh, hb⟩
          injection hoh with hoh
          subst hoh
          simp only [Bool.or_eq_true, beq_iff_eq, Bool.not_eq_true'] at hc
          simp only [Bool.and_eq_true, bne_iff_ne, ne_eq, Bool.not_eq_true'] at hb
          obtain ⟨⟨⟨⟨h1, h2⟩, h3⟩, h4⟩, h5⟩ := hb
          rcases hc with (((hc | hc) | hc) | hc) | hc <;> simp_all
      · rw [if_neg hc]
        constructor
        · intro hi
          injection hi with hih
          subst hih
          refine ⟨rfl, ?_⟩
          have hc' : (a == "" || jsStartsWith a "http" || jsStartsWith a "#" ||
              jsStartsWith a "mailto:" || !jsEndsWith a ".html") = false :=
            Bool.eq_false_iff.mpr hc
          simp only [Bool.or_eq_false_iff, beq_eq_false_iff_ne, ne_eq,
            Bool.not_eq_false'] at hc'
          obtain ⟨⟨⟨⟨h1, h2⟩, h3⟩, h4⟩, h5⟩ := hc'
          simp [Bool.and_eq_true, bne_iff_ne, Bool.not_eq_true', h1, h2, h3, h4, h5]
        · rintro ⟨hoh, _⟩
          injection hoh with hoh
          subst hoh
          rfl

end Spa
